import Mathlib

/-!
Verification of the multi-architecture container-image build-and-publish
pipeline in `build/deploy.js` (gulp deployment tasks).

The JavaScript source is shallowly embedded: pure helpers (`getArg`,
`createImageName`, image-name/context pairing) become Lean functions;
process spawning is modelled by recording the spawned `ProcessInvocation`s
together with an outcome computed from externally supplied exit codes;
the gulp task scheduler (not part of this repository's sources) is
modelled from the spec as a step relation over per-stage states.
-/

namespace Deploy

/-- The value space of the JS function `getArg`: it returns `null` when the
key is absent from `process.argv`, the boolean `true` when the key is
present but the following token is missing, empty or flag-shaped, and the
following token (a string) otherwise. -/
inductive ArgValue where
  | null
  | flagTrue
  | str (s : String)
deriving DecidableEq, Repr

/-- JS truthiness of an `ArgValue` (`null` is falsy, `true` is truthy, a
string is truthy iff nonempty; `getArg` never returns an empty string, but
truthiness is embedded faithfully). -/
def ArgValue.truthy : ArgValue → Bool
  | .null => false
  | .flagTrue => true
  | .str s => !s.isEmpty

/-- JS template-literal interpolation `${v}` of an `ArgValue`:
`null` prints as "null", `true` as "true", a string as itself. -/
def ArgValue.interp : ArgValue → String
  | .null => "null"
  | .flagTrue => "true"
  | .str s => s

/-- JS `Array.prototype.indexOf` on a string array: index of the first
token that is exactly (`===`) the key, `none` when no token matches
(the JS source returns -1 and guards with `index < 0`). -/
def indexOf? : List String → String → Option Nat
  | [], _ => none
  | a :: l, key => if a = key then some 0 else (indexOf? l key).map (· + 1)

/-- The JS expression `(!next || next[0] === "-") ? true : next` applied to
`process.argv[index + 1]` (`none` models `undefined`). -/
def resolveNext : Option String → ArgValue
  | none => .flagTrue
  | some next => if next.isEmpty then .flagTrue
                 else if next.front = '-' then .flagTrue
                 else .str next

/-- Embedding of `getArg(key)` from `build/deploy.js`:
`var index = process.argv.indexOf(key); var next = process.argv[index + 1];
return (index < 0) ? null : (!next || next[0] === "-") ? true : next;`.
The process argument list is passed explicitly. -/
def getArg (argv : List String) (key : String) : ArgValue :=
  match indexOf? argv key with
  | none => .null
  | some i => resolveNext (argv.get? (i + 1))

/-- The configuration object `conf` consumed by `deploy.js` (an external,
already-validated collaborator; only the fields the deploy tasks read). -/
structure Conf where
  /-- Field `conf.repo.docker`. -/
  repoDocker : String
  /-- Field `conf.deploy.imageNameBase`. -/
  imageNameBase : String
  /-- Field `conf.deploy.version.canary`. -/
  versionDotCanary : String
  /-- Field `conf.deploy.imageName`. -/
  imageName : String
  /-- Field `conf.deploy.versionCanary`. -/
  versionCanary : String
  /-- Field `conf.deploy.canaryImageNames`. -/
  canaryImageNames : List String
  /-- Field `conf.paths.distCross`. -/
  distCross : List String
deriving DecidableEq, Repr

/-- Embedding of `createImageName()` from `build/deploy.js`:
reads `--pr` and `--canary` via `getArg`; if `isCanary` is falsy it returns
`` `${conf.repo.docker}/${conf.deploy.imageNameBase}:${prNumber}` ``,
otherwise `` `${conf.repo.docker}/${conf.deploy.imageNameBase}:${conf.deploy.version.canary}` ``. -/
def createImageName (conf : Conf) (argv : List String) : String :=
  let prNumber := getArg argv "--pr"
  let isCanary := getArg argv "--canary"
  if !isCanary.truthy then
    conf.repoDocker ++ "/" ++ conf.imageNameBase ++ ":" ++ prNumber.interp
  else
    conf.repoDocker ++ "/" ++ conf.imageNameBase ++ ":" ++ conf.versionDotCanary

/-- A spawned external process: command plus ordered argument list
(stdio is always inherited in the source; not modelled). -/
structure ProcessInvocation where
  command : String
  args : List String
deriving DecidableEq, Repr

/-- Exit-code handling of `spawnDockerProcess`: code 0 resolves, any other
code fails with `Docker command error, code: ${code}`. -/
def spawnDockerOutcome (code : Int) : Except String Unit :=
  if code = 0 then .ok () else .error ("Docker command error, code: " ++ toString code)

/-- Semantics of `Promise.all` over a list of settled outcomes, in order: resolves iff
every member resolved, otherwise rejects with the first rejection. -/
def joinAll : List (Except String Unit) → Except String Unit
  | [] => .ok ()
  | .ok () :: rest => joinAll rest
  | .error e :: _ => .error e

/-- Embedding of `buildDockerImage(imageNamesAndDirs)` from `build/deploy.js`: for each
(image name, directory) pair spawns
`docker build --rm=true --tag <imageName> <dir>` and joins the results with
`Promise.all`. The exit code of each spawned process is supplied
positionally in `codes`; the model returns the spawned invocations together
with the joined outcome. -/
def buildDockerImage (targets : List (String × String)) (codes : List Int) :
    List ProcessInvocation × Except String Unit :=
  (targets.map (fun t => ⟨"docker", ["build", "--rm=true", "--tag", t.1, t.2]⟩),
   joinAll ((targets.zip codes).map (fun p => spawnDockerOutcome p.2)))

/-- Embedding of `pushToGcr(version)` from `build/deploy.js`: spawns a single
`gcloud docker push ${conf.deploy.imageName}:${version}` and resolves iff
the exit code is 0, otherwise fails with
`gcloud command error, code: ${code}`. -/
def pushToGcr (conf : Conf) (version : String) (code : Int) :
    List ProcessInvocation × Except String Unit :=
  ([⟨"gcloud", ["docker", "push", conf.imageName ++ ":" ++ version]⟩],
   if code = 0 then .ok () else .error ("gcloud command error, code: " ++ toString code))

/-- The action of the gulp task `push-to-gcr:canary`:
`pushToGcr(conf.deploy.versionCanary, doneFn)`. -/
def pushToGcrCanaryStage (conf : Conf) (code : Int) :
    List ProcessInvocation × Except String Unit :=
  pushToGcr conf conf.versionCanary code

/-- The build targets of the gulp task `docker-image:canary:cross`:
`lodash.zip(conf.deploy.canaryImageNames, conf.paths.distCross)`
(for equal-length lists, `lodash.zip` is exactly positional pairing). -/
def dockerImageCanaryCrossTargets (conf : Conf) : List (String × String) :=
  conf.canaryImageNames.zip conf.distCross

/-- A concrete example configuration, used for witnesses and
counterexamples: two architectures with distinctly named canary images and
distinct per-architecture output directories. -/
def exConf : Conf :=
  { repoDocker := "example.repo"
    imageNameBase := "dashboard"
    versionDotCanary := "canary-head"
    imageName := "gcr.io/example/dashboard"
    versionCanary := "v1-canary"
    canaryImageNames := ["A", "B"]
    distCross := ["d1", "d2"] }

/-! ### Helper lemmas about `indexOf?` and `getArg` -/

theorem indexOf?_eq_none_iff (l : List String) (k : String) :
    indexOf? l k = none ↔ k ∉ l := by
  induction l with
  | nil => simp [indexOf?]
  | cons a l ih =>
    by_cases h : a = k
    · subst h; simp [indexOf?]
    · simp only [indexOf?, if_neg h, Option.map_eq_none', List.mem_cons, ih]
      constructor
      · rintro hk (rfl | hm)
        · exact h rfl
        · exact hk hm
      · exact fun hk hm => hk (Or.inr hm)

theorem indexOf?_append_first (pre : List String) (k : String) (rest : List String)
    (h : k ∉ pre) : indexOf? (pre ++ k :: rest) k = some pre.length := by
  induction pre with
  | nil => simp [indexOf?]
  | cons a pre ih =>
    have ha : a ≠ k := fun e => h (e ▸ List.mem_cons_self a pre)
    have hp : k ∉ pre := fun hm => h (List.mem_cons_of_mem a hm)
    simp [indexOf?, ha, ih hp]

theorem get?_append_succ (pre : List String) (k : String) (rest : List String) :
    (pre ++ k :: rest)[pre.length + 1]? = rest.head? := by
  induction pre with
  | nil => cases rest <;> simp
  | cons a pre ih => simpa using ih

/-- Value of `getArg` at the first occurrence of the key: the result is determined by
the token directly after that occurrence. -/
theorem getArg_split (pre : List String) (key : String) (rest : List String)
    (h : key ∉ pre) : getArg (pre ++ key :: rest) key = resolveNext rest.head? := by
  simp [getArg, indexOf?_append_first pre key rest h, get?_append_succ]

theorem getArg_eq_null (argv : List String) (key : String) (h : key ∉ argv) :
    getArg argv key = .null := by
  simp [getArg, (indexOf?_eq_none_iff argv key).2 h]

theorem resolveNext_truthy (o : Option String) : (resolveNext o).truthy = true := by
  cases o with
  | none => rfl
  | some next =>
    by_cases h1 : next.isEmpty
    · simp [resolveNext, h1, ArgValue.truthy]
    · by_cases h2 : next.front = '-'
      · simp [resolveNext, h1, h2, ArgValue.truthy]
      · simp [resolveNext, h1, h2, ArgValue.truthy]

/-- A key that occurs in the argument list always resolves to a truthy
value (`true` or a nonempty string), never to `null`. -/
theorem getArg_mem_truthy (argv : List String) (key : String) (h : key ∈ argv) :
    (getArg argv key).truthy = true := by
  have hne : indexOf? argv key ≠ none :=
    fun e => ((indexOf?_eq_none_iff argv key).1 e) h
  obtain ⟨i, hi⟩ := Option.ne_none_iff_exists'.1 hne
  simp [getArg, hi, resolveNext_truthy]

/-! ### Claims about the Argument Resolver and the Image Namer -/

/-- C7: `getArg` never fails; it is total on every argument list. When the
key's value token is missing (the key is the last token) or is itself
flag-shaped (starts with '-'), `getArg` returns boolean `true`; when the key
is absent it returns `null`. Malformed arguments degrade to these
defaults. -/
theorem getArg_malformed_defaults (argv : List String) (key : String) :
    (key ∉ argv → getArg argv key = .null) ∧
    (∀ pre, key ∉ pre → argv = pre ++ [key] → getArg argv key = .flagTrue) ∧
    (∀ pre next rest, key ∉ pre → next.front = '-' →
      argv = pre ++ key :: next :: rest → getArg argv key = .flagTrue) := by
  refine ⟨getArg_eq_null argv key, ?_, ?_⟩
  · rintro pre hpre rfl
    simp [getArg_split pre key [] hpre, resolveNext]
  · rintro pre next rest hpre hdash rfl
    by_cases h1 : next.isEmpty
    · simp [getArg_split pre key (next :: rest) hpre, resolveNext, h1]
    · simp [getArg_split pre key (next :: rest) hpre, resolveNext, h1, hdash]

/-- C7 witness: on `["x", "--pr"]` the key `--pr` is last, so the result is
boolean `true`; on `["x"]` the key is absent, so the result is `null`. -/
theorem getArg_malformed_defaults_witness :
    getArg ["x", "--pr"] "--pr" = .flagTrue ∧ getArg ["x"] "--pr" = .null :=
  ⟨(getArg_malformed_defaults ["x", "--pr"] "--pr").2.1 ["x"] (by decide) rfl,
   (getArg_malformed_defaults ["x"] "--pr").1 (by decide)⟩

/-- C10: `getArg` matches the key only as an exact whole token (a token
merely containing the key does not match, so the key is absent in the
membership sense iff no token equals it), its result is determined entirely
by the first occurrence of the key, and when the token directly after the
first occurrence is a plain value (nonempty, not flag-shaped) that token is
returned. -/
theorem getArg_first_exact_match (argv : List String) (key : String) :
    (key ∉ argv → getArg argv key = .null) ∧
    (∀ pre rest, key ∉ pre → argv = pre ++ key :: rest →
      getArg argv key = getArg (key :: rest) key) ∧
    (∀ pre next rest, key ∉ pre → ¬ next.isEmpty → next.front ≠ '-' →
      argv = pre ++ key :: next :: rest → getArg argv key = .str next) := by
  refine ⟨getArg_eq_null argv key, ?_, ?_⟩
  · rintro pre rest hpre rfl
    rw [getArg_split pre key rest hpre]
    have : getArg ([] ++ key :: rest) key = resolveNext rest.head? :=
      getArg_split [] key rest (by simp)
    simpa using this.symm
  · rintro pre next rest hpre h1 h2 rfl
    simp [getArg_split pre key (next :: rest) hpre, resolveNext, h1, h2]

/-- C10 witness: with the key occurring twice, the value after the first
occurrence is returned; a token that merely extends the key does not
match. -/
theorem getArg_first_exact_match_witness :
    getArg ["--pr", "7", "--pr", "9"] "--pr" = .str "7" ∧
    getArg ["--prx", "7"] "--pr" = .null :=
  ⟨(getArg_first_exact_match ["--pr", "7", "--pr", "9"] "--pr").2.2
      [] "7" ["--pr", "9"] (by decide) (by decide) (by decide) rfl,
   (getArg_first_exact_match ["--prx", "7"] "--pr").1 (by decide)⟩

/-- C1 (code bug evaluation): with neither a `--pr` argument nor a
`--canary` flag, `createImageName` does NOT return the canary-tagged name
`{repo}/{base}:{canaryVersion}` promised by its own doc comment; both
`getArg` calls return `null`, `!isCanary` is true, and the PR branch
interpolates the `null` PR number, yielding `{repo}/{base}:null`. -/
theorem createImageName_default_is_null_tag :
    createImageName exConf ["node", "gulp"] = "example.repo/dashboard:null" ∧
    createImageName exConf ["node", "gulp"] ≠
      "example.repo" ++ "/" ++ "dashboard" ++ ":" ++ exConf.versionDotCanary := by
  constructor <;> decide

/-- C2 counterexample: with both `--pr 42` and `--canary` supplied,
`createImageName` returns the canary-tagged name, not the PR-tagged name
`{repo}/{base}:42` that the claim demands. -/
theorem createImageName_both_flags_counterexample :
    createImageName exConf ["--pr", "42", "--canary"] =
      "example.repo/dashboard:canary-head" ∧
    createImageName exConf ["--pr", "42", "--canary"] ≠
      "example.repo/dashboard:42" := by
  constructor <;> decide

/-- C2 amended: when both a PR number argument and the canary flag are
supplied, the canary flag takes precedence and `createImageName` returns
the canary-tagged name `{repo}/{base}:{canaryVersion}`. -/
theorem createImageName_canary_precedence (conf : Conf) (argv : List String)
    (_hpr : "--pr" ∈ argv) (hc : "--canary" ∈ argv) :
    createImageName conf argv =
      conf.repoDocker ++ "/" ++ conf.imageNameBase ++ ":" ++ conf.versionDotCanary := by
  have ht := getArg_mem_truthy argv "--canary" hc
  simp [createImageName, ht]

/-- C2 amended witness: `--pr 42 --canary` yields the canary-tagged name on
the example configuration. -/
theorem createImageName_canary_precedence_witness :
    createImageName exConf ["--pr", "42", "--canary"] =
      "example.repo" ++ "/" ++ "dashboard" ++ ":" ++ "canary-head" :=
  createImageName_canary_precedence exConf ["--pr", "42", "--canary"]
    (by decide) (by decide)

/-- C8: with a PR number argument of "42" and no canary flag, the derived
image name ends in ":42" (it is `{repo}/{base}:42`). -/
theorem createImageName_pr42_suffix (conf : Conf) (argv : List String)
    (hpr : getArg argv "--pr" = .str "42") (hc : "--canary" ∉ argv) :
    ∃ s, createImageName conf argv = s ++ ":42" := by
  refine ⟨conf.repoDocker ++ "/" ++ conf.imageNameBase, ?_⟩
  have hnull := getArg_eq_null argv "--canary" hc
  simp only [createImageName, hpr, hnull, ArgValue.truthy, Bool.not_false, if_true,
    ArgValue.interp]
  rw [String.append_assoc]
  have h42 : (":" ++ "42" : String) = ":42" := by decide
  rw [h42]

/-- C8 witness: `--pr 42` on the example configuration yields a name ending
in ":42". -/
theorem createImageName_pr42_suffix_witness :
    ∃ s, createImageName exConf ["--pr", "42"] = s ++ ":42" :=
  createImageName_pr42_suffix exConf ["--pr", "42"] (by decide) (by decide)

/-! ### Helper lemmas about the Image Builder fan-out/fan-in -/

/-- The first nonzero exit code, in the (list) order failures are
encountered in the deterministic model of `Promise.all`. -/
def firstFailure : List Int → Option Int
  | [] => none
  | c :: rest => if c = 0 then firstFailure rest else some c

theorem joinAll_nil : joinAll [] = .ok () := rfl

theorem joinAll_ok_cons (l : List (Except String Unit)) :
    joinAll (.ok () :: l) = joinAll l := rfl

theorem joinAll_err_cons (e : String) (l : List (Except String Unit)) :
    joinAll (.error e :: l) = .error e := rfl

theorem spawnDockerOutcome_zero (c : Int) (hc : c = 0) :
    spawnDockerOutcome c = .ok () := by
  simp [spawnDockerOutcome, hc]

theorem spawnDockerOutcome_nonzero (c : Int) (hc : ¬ c = 0) :
    spawnDockerOutcome c = .error ("Docker command error, code: " ++ toString c) := by
  simp [spawnDockerOutcome, hc]

theorem joinAll_zip_ok_iff (targets : List (String × String)) (codes : List Int)
    (h : codes.length = targets.length) :
    joinAll ((targets.zip codes).map (fun p => spawnDockerOutcome p.2)) = .ok () ↔
      ∀ c ∈ codes, c = 0 := by
  induction targets generalizing codes with
  | nil =>
    cases codes with
    | nil => simp [joinAll]
    | cons c cs => simp at h
  | cons t ts ih =>
    cases codes with
    | nil => simp at h
    | cons c cs =>
      have h' : cs.length = ts.length := by simpa using h
      rw [List.zip_cons_cons, List.map_cons]
      by_cases hc : c = 0
      · rw [spawnDockerOutcome_zero c hc, joinAll_ok_cons, ih cs h']
        simp [List.forall_mem_cons, hc]
      · rw [spawnDockerOutcome_nonzero c hc, joinAll_err_cons]
        simp [List.forall_mem_cons, hc]

theorem joinAll_zip_err (targets : List (String × String)) (codes : List Int)
    (h : codes.length = targets.length) (c : Int) (hf : firstFailure codes = some c) :
    joinAll ((targets.zip codes).map (fun p => spawnDockerOutcome p.2)) =
      .error ("Docker command error, code: " ++ toString c) := by
  induction targets generalizing codes with
  | nil =>
    cases codes with
    | nil => simp [firstFailure] at hf
    | cons c0 cs => simp at h
  | cons t ts ih =>
    cases codes with
    | nil => simp [firstFailure] at hf
    | cons c0 cs =>
      have h' : cs.length = ts.length := by simpa using h
      rw [List.zip_cons_cons, List.map_cons]
      by_cases hc : c0 = 0
      · rw [firstFailure, if_pos hc] at hf
        rw [spawnDockerOutcome_zero c0 hc, joinAll_ok_cons]
        exact ih cs h' hf
      · rw [firstFailure, if_neg hc] at hf
        cases hf
        rw [spawnDockerOutcome_nonzero c hc, joinAll_err_cons]

/-! ### Claims about the Image Builder and the Registry Publisher -/

/-- C4: `buildDockerImage` spawns exactly one `docker` invocation per
(image name, context directory) target, with arguments
`build --rm=true --tag <imageName> <contextDir>`; the joined outcome is
success iff every invocation exits 0, it is a failure iff at least one
exits nonzero, and the reported error carries the first encountered
nonzero exit code. -/
theorem buildDockerImage_spec (targets : List (String × String)) (codes : List Int)
    (h : codes.length = targets.length) :
    (buildDockerImage targets codes).1.length = targets.length ∧
    (∀ i (hi : i < targets.length) (hj : i < (buildDockerImage targets codes).1.length),
      (buildDockerImage targets codes).1.get ⟨i, hj⟩ =
        ⟨"docker", ["build", "--rm=true", "--tag",
          (targets.get ⟨i, hi⟩).1, (targets.get ⟨i, hi⟩).2]⟩) ∧
    ((buildDockerImage targets codes).2 = .ok () ↔ ∀ c ∈ codes, c = 0) ∧
    ((buildDockerImage targets codes).2 ≠ .ok () ↔ ∃ c ∈ codes, c ≠ 0) ∧
    (∀ c, firstFailure codes = some c →
      (buildDockerImage targets codes).2 =
        .error ("Docker command error, code: " ++ toString c)) := by
  refine ⟨by simp [buildDockerImage], ?_, joinAll_zip_ok_iff targets codes h, ?_, ?_⟩
  · intro i hi hj
    simp [buildDockerImage]
  · have hok : (buildDockerImage targets codes).2 = .ok () ↔ ∀ c ∈ codes, c = 0 :=
      joinAll_zip_ok_iff targets codes h
    simp only [ne_eq, hok]
    push_neg
    exact Iff.rfl
  · exact fun c hf => joinAll_zip_err targets codes h c hf

/-- C4 witness: two targets with exit codes 0 and 3 spawn the two expected
`docker build` invocations and fail with the code-3 failure; with codes 0
and 0 the join succeeds. -/
theorem buildDockerImage_spec_witness :
    (buildDockerImage [("A", "d1"), ("B", "d2")] [0, 3]).2 =
      .error ("Docker command error, code: " ++ toString (3 : Int)) ∧
    (buildDockerImage [("A", "d1"), ("B", "d2")] [0, 3]).1.length = 2 :=
  ⟨(buildDockerImage_spec [("A", "d1"), ("B", "d2")] [0, 3] (by decide)).2.2.2.2
      3 (by decide),
   by
    have := (buildDockerImage_spec [("A", "d1"), ("B", "d2")] [0, 3] (by decide)).1
    simpa using this⟩

/-- C9: for the empty target list, `buildDockerImage` spawns no process and
the `Promise.all` join resolves successfully (vacuous fan-in). -/
theorem buildDockerImage_empty (codes : List Int) :
    buildDockerImage [] codes = ([], .ok ()) := rfl

/-- C5: the cross-architecture canary build pairs image names with output
directories strictly positionally: the target list has one entry per
architecture and entry `i` is exactly (name `i`, directory `i`). -/
theorem dockerImageCanaryCross_positional (conf : Conf)
    (h : conf.canaryImageNames.length = conf.distCross.length) :
    (dockerImageCanaryCrossTargets conf).length = conf.canaryImageNames.length ∧
    ∀ i (ht : i < (dockerImageCanaryCrossTargets conf).length)
        (hn : i < conf.canaryImageNames.length) (hd : i < conf.distCross.length),
      (dockerImageCanaryCrossTargets conf).get ⟨i, ht⟩ =
        (conf.canaryImageNames.get ⟨i, hn⟩, conf.distCross.get ⟨i, hd⟩) := by
  constructor
  · simp [dockerImageCanaryCrossTargets, h]
  · intro i ht hn hd
    simp [dockerImageCanaryCrossTargets, List.getElem_zip]

/-- C5 witness: with names ["A","B"] and directories ["d1","d2"] the
targets are exactly ("A","d1") at position 0 and ("B","d2") at position 1 —
never a crossed pairing. -/
theorem dockerImageCanaryCross_positional_witness :
    (dockerImageCanaryCrossTargets exConf).get ⟨0, by decide⟩ = ("A", "d1") ∧
    (dockerImageCanaryCrossTargets exConf).get ⟨1, by decide⟩ = ("B", "d2") :=
  ⟨(dockerImageCanaryCross_positional exConf (by decide)).2 0 (by decide) (by decide)
      (by decide),
   (dockerImageCanaryCross_positional exConf (by decide)).2 1 (by decide) (by decide)
      (by decide)⟩

/-- C3 counterexample: on the example configuration two architectures have
distinctly named canary images ("A", "B"), yet the `push-to-gcr:canary`
stage spawns exactly one push invocation — for
`{conf.deploy.imageName}:{conf.deploy.versionCanary}` — not one per
pre-built image name. -/
theorem pushToGcr_single_invocation_counterexample :
    exConf.canaryImageNames.length = 2 ∧
    (pushToGcrCanaryStage exConf 0).1.length = 1 ∧
    ¬ (pushToGcrCanaryStage exConf 0).1.length = 2 ∧
    (pushToGcrCanaryStage exConf 0).1 =
      [⟨"gcloud", ["docker", "push", "gcr.io/example/dashboard:v1-canary"]⟩] := by
  refine ⟨rfl, rfl, by decide, ?_⟩
  decide

/-- C3 amended: the cross-architecture push stage (`pushToGcr`) spawns
exactly one `gcloud docker push {conf.deploy.imageName}:{version}`
invocation per run, regardless of the number of architectures built, and
succeeds iff that single push exits 0. -/
theorem pushToGcr_spec (conf : Conf) (version : String) (code : Int) :
    (pushToGcr conf version code).1 =
      [⟨"gcloud", ["docker", "push", conf.imageName ++ ":" ++ version]⟩] ∧
    ((pushToGcr conf version code).2 = .ok () ↔ code = 0) := by
  refine ⟨rfl, ?_⟩
  by_cases hc : code = 0 <;> simp [pushToGcr, hc]

/-! ### Pipeline Orchestrator

Modelled from the spec: the stage scheduler (gulp's dependency-ordered task
runner, declared in `deploy.js` through `gulp.task(name, deps, action)` but
implemented outside this repository's sources) is embedded as a step
relation over per-stage states. -/

/-- Modelled from the spec: the per-stage state machine of the Pipeline
Orchestrator — pending → waiting-on-dependencies → running →
{succeeded | failed}. -/
inductive StageState where
  | pending
  | waiting
  | running
  | succeeded
  | failed
deriving DecidableEq, Repr

/-- Pointwise update of a stage-state assignment. -/
def updState (σ : String → StageState) (s : String) (v : StageState) :
    String → StageState :=
  fun t => if t = s then v else σ t

/-- Modelled from the spec: one scheduling step of the Pipeline
Orchestrator over the dependency graph `deps`. A stage transitions to
running only when every declared dependency is succeeded; a stage with a
failed dependency transitions directly to failed without running;
succeeded and failed are terminal (no rule leaves them). -/
inductive Step (deps : String → List String) :
    (String → StageState) → (String → StageState) → Prop where
  | enqueue (σ : String → StageState) (s : String) :
      σ s = .pending → Step deps σ (updState σ s .waiting)
  | start (σ : String → StageState) (s : String) :
      σ s = .waiting → (∀ d ∈ deps s, σ d = .succeeded) →
      Step deps σ (updState σ s .running)
  | depFailed (σ : String → StageState) (s d : String) :
      σ s = .waiting → d ∈ deps s → σ d = .failed →
      Step deps σ (updState σ s .failed)
  | finishOk (σ : String → StageState) (s : String) :
      σ s = .running → Step deps σ (updState σ s .succeeded)
  | finishFailed (σ : String → StageState) (s : String) :
      σ s = .running → Step deps σ (updState σ s .failed)

/-- Reflexive-transitive closure of `Step`: a run of the stage graph. -/
inductive Reaches (deps : String → List String) :
    (String → StageState) → (String → StageState) → Prop where
  | refl (σ : String → StageState) : Reaches deps σ σ
  | tail {σ₁ σ₂ σ₃ : String → StageState} :
      Reaches deps σ₁ σ₂ → Step deps σ₂ σ₃ → Reaches deps σ₁ σ₃

/-- The initial assignment: every stage is pending. -/
def initState : String → StageState := fun _ => .pending

theorem updState_self (σ : String → StageState) (s : String) (v : StageState) :
    updState σ s v s = v := by
  simp [updState]

theorem updState_ne (σ : String → StageState) {s t : String} (v : StageState)
    (ht : t ≠ s) : updState σ s v t = σ t := by
  simp [updState, ht]

/-- Terminal states persist across a single step: no rule leaves
`succeeded` or `failed`. -/
theorem Step.preserves_terminal {deps : String → List String}
    {σ σ' : String → StageState} (hst : Step deps σ σ') (t : String) (w : StageState)
    (hw : w = StageState.succeeded ∨ w = StageState.failed) (h : σ t = w) :
    σ' t = w := by
  have key : ∀ (s : String) (v : StageState), σ s ≠ w → updState σ s v t = w := by
    intro s v hs
    by_cases hts : t = s
    · subst hts; exact absurd h hs
    · rw [updState_ne σ v hts]; exact h
  cases hst with
  | enqueue s hs =>
      exact key s _ (fun e => by rcases hw with rfl | rfl <;> simp [hs] at e)
  | start s hs hdeps =>
      exact key s _ (fun e => by rcases hw with rfl | rfl <;> simp [hs] at e)
  | depFailed s d hs hd hdf =>
      exact key s _ (fun e => by rcases hw with rfl | rfl <;> simp [hs] at e)
  | finishOk s hs =>
      exact key s _ (fun e => by rcases hw with rfl | rfl <;> simp [hs] at e)
  | finishFailed s hs =>
      exact key s _ (fun e => by rcases hw with rfl | rfl <;> simp [hs] at e)

/-- A failed stage stays failed along any run. -/
theorem Reaches.preserves_failed {deps : String → List String}
    {σ₁ σ₂ : String → StageState} (h : Reaches deps σ₁ σ₂) (t : String)
    (hf : σ₁ t = .failed) : σ₂ t = .failed := by
  induction h with
  | refl => exact hf
  | tail hr hst ih => exact hst.preserves_terminal t _ (Or.inr rfl) ih

/-- Invariant: every running stage has all its dependencies succeeded. -/
def DepsOk (deps : String → List String) (σ : String → StageState) : Prop :=
  ∀ s, σ s = .running → ∀ d ∈ deps s, σ d = .succeeded

theorem Step.depsOk_preserved {deps : String → List String}
    {σ σ' : String → StageState} (hst : Step deps σ σ') (h : DepsOk deps σ) :
    DepsOk deps σ' := by
  have aux : ∀ (s : String) (v : StageState), v ≠ .running → σ s ≠ .succeeded →
      DepsOk deps (updState σ s v) := by
    intro s v hv hs t ht d hd
    by_cases hts : t = s
    · subst hts; rw [updState_self] at ht; exact absurd ht hv
    · rw [updState_ne σ v hts] at ht
      have hds := h t ht d hd
      by_cases hdss : d = s
      · subst hdss; exact absurd hds hs
      · rw [updState_ne σ v hdss]; exact hds
  cases hst with
  | enqueue s hs => exact aux s _ (by simp) (by simp [hs])
  | depFailed s d hs hd hdf => exact aux s _ (by simp) (by simp [hs])
  | finishOk s hs => exact aux s _ (by simp) (by simp [hs])
  | finishFailed s hs => exact aux s _ (by simp) (by simp [hs])
  | start u hu hdeps =>
      intro t ht d hd
      by_cases htu : t = u
      · subst htu
        have hds := hdeps d hd
        by_cases hdu : d = t
        · subst hdu; rw [hu] at hds; cases hds
        · rw [updState_ne σ _ hdu]; exact hds
      · rw [updState_ne σ _ htu] at ht
        have hds := h t ht d hd
        by_cases hdu : d = u
        · subst hdu; rw [hu] at hds; cases hds
        · rw [updState_ne σ _ hdu]; exact hds

theorem Reaches.depsOk_along_run {deps : String → List String}
    {σ₁ σ₂ : String → StageState} (h : Reaches deps σ₁ σ₂)
    (h₁ : DepsOk deps σ₁) : DepsOk deps σ₂ := by
  induction h with
  | refl => exact h₁
  | tail hr hst ih => exact hst.depsOk_preserved ih

theorem initState_depsOk (deps : String → List String) : DepsOk deps initState := by
  intro s hs
  cases hs

/-- C6: in every run of the stage graph from the all-pending initial
state, a stage whose declared dependency has failed never invokes its
action: once a dependency is failed, the dependent stage is never in state
running at any later point of the run (a stage enters running only when
every dependency is succeeded, and failed is terminal). -/
theorem stage_never_runs_after_dep_failed (deps : String → List String)
    (σ₁ σ₂ : String → StageState) (s d : String)
    (h01 : Reaches deps initState σ₁) (h12 : Reaches deps σ₁ σ₂)
    (hd : d ∈ deps s) (hf : σ₁ d = .failed) : σ₂ s ≠ .running := by
  intro hrun
  have hdok : DepsOk deps σ₂ :=
    h12.depsOk_along_run (h01.depsOk_along_run (initState_depsOk deps))
  have hsucc : σ₂ d = .succeeded := hdok s hrun d hd
  have hfail : σ₂ d = .failed := h12.preserves_failed d hf
  rw [hsucc] at hfail
  cases hfail

/-- Example dependency graph for the witness: the cross-architecture build
stage depends on the Dockerfile-render stage (`docker-image:canary:cross`
depends on `docker-file:cross`), as declared in `deploy.js`. -/
def exDeps : String → List String :=
  fun s => if s = "docker-image:canary:cross" then ["docker-file:cross"] else []

/-- Trace state: render stage enqueued. -/
def exTrace1 : String → StageState := updState initState "docker-file:cross" .waiting

/-- Trace state: render stage running. -/
def exTrace2 : String → StageState := updState exTrace1 "docker-file:cross" .running

/-- Trace state: render stage failed. -/
def exTrace3 : String → StageState := updState exTrace2 "docker-file:cross" .failed

/-- C6 witness: forcing `docker-file:cross` to fail in a concrete run
leaves the dependent build stage `docker-image:canary:cross` out of the
running state. -/
theorem stage_never_runs_after_dep_failed_witness :
    exTrace3 "docker-image:canary:cross" ≠ .running := by
  have h1 : Step exDeps initState exTrace1 :=
    Step.enqueue initState "docker-file:cross" rfl
  have h2 : Step exDeps exTrace1 exTrace2 := by
    refine Step.start exTrace1 "docker-file:cross" (by decide) ?_
    intro d hd
    have hnil : exDeps "docker-file:cross" = [] := by decide
    rw [hnil] at hd
    cases hd
  have h3 : Step exDeps exTrace2 exTrace3 :=
    Step.finishFailed exTrace2 "docker-file:cross" (by decide)
  exact stage_never_runs_after_dep_failed exDeps exTrace3 exTrace3
    "docker-image:canary:cross" "docker-file:cross"
    (Reaches.tail (Reaches.tail (Reaches.tail (Reaches.refl initState) h1) h2) h3)
    (Reaches.refl exTrace3) (by decide) (by decide)

end Deploy
